import Mathlib

/-!
# Verification of `pkg/engine/funcs.go` (template helper functions)

This file gives a shallow embedding of the template-callable helpers of
`pkg/engine/funcs.go`: the Format Bridge (`toYAML`, `fromYAML`,
`fromYAMLArray`, `fromYamlDocument`, `toJSON`, `fromJSON`, `fromJSONArray`,
`toTOML`) and the Predicate Filter Engine (`doFilter`, `filter`,
`mustFilter`), and proves the specified properties about them.

Go `interface{}` values are embedded as the inductive `GoVal`, whose
constructors record the reflection kind of the dynamic type (string, int,
bool, slice, array, map, struct, ptr, func).  Go maps with string keys are
embedded as association lists with unique keys (`GoMap`); the embedding of
map iteration looks the key up in the list, which agrees with Go's
arbitrary-order iteration because keys in a Go map are unique.

The YAML/JSON/TOML codecs themselves live in external libraries
(`sigs.k8s.io/yaml`, `encoding/json`, `BurntSushi/toml`,
`k8s.io/apimachinery .../yaml`), not in this repository, so the bridge
functions are parameterised over the codec: an unmarshaller receives the
input text and the current contents of the destination (Go unmarshalling
mutates the destination in place) and returns the final contents together
with an optional error message, exactly the shape of
`err := yaml.Unmarshal([]byte(str), &m)`.
-/

namespace Engine

/-- Embedding of a Go `interface{}` value, tagged by the reflection kind of
its dynamic type.  `structV fields` is a struct value with named fields,
`ptr p` a non-nil pointer to `p`, and `func` an opaque function value. -/
inductive GoVal where
  | str (s : String)
  | int (n : Int)
  | bool (b : Bool)
  | slice (xs : List GoVal)
  | array (xs : List GoVal)
  | map (kvs : List (String × GoVal))
  | structV (fields : List (String × GoVal))
  | ptr (p : GoVal)
  | func
deriving Repr

/-- A Go `map[string]interface{}`, embedded as an association list. -/
abbrev GoMap := List (String × GoVal)

mutual

/-- Embedding of Go `reflect.DeepEqual` on embedded values: two interface
values are deeply equal when their dynamic types (kinds) agree and their
contents are recursively equal.  Pointers compare their pointees
(`DeepEqual` follows pointers), and two non-nil function values are never
deeply equal. -/
def deepEqual : GoVal → GoVal → Bool
  | .str a, .str b => a == b
  | .int a, .int b => a == b
  | .bool a, .bool b => a == b
  | .slice a, .slice b => deepEqualList a b
  | .array a, .array b => deepEqualList a b
  | .map a, .map b => deepEqualKVs a b
  | .structV a, .structV b => deepEqualKVs a b
  | .ptr a, .ptr b => deepEqual a b
  | _, _ => false

/-- `deepEqual`, pointwise on the elements of two Go slices/arrays. -/
def deepEqualList : List GoVal → List GoVal → Bool
  | [], [] => true
  | a :: as, b :: bs => deepEqual a b && deepEqualList as bs
  | _, _ => false

/-- `deepEqual`, pointwise on the entries of two Go maps/structs (the
association lists are kept in a canonical order, so entrywise comparison
coincides with Go's order-insensitive map comparison). -/
def deepEqualKVs : List (String × GoVal) → List (String × GoVal) → Bool
  | [], [] => true
  | (k1, v1) :: as, (k2, v2) :: bs => k1 == k2 && deepEqual v1 v2 && deepEqualKVs as bs
  | _, _ => false

end

/-- The string produced by Go's `reflect.Kind.String()` for the kind of the
embedded value; this is the `%s` verb's rendering of `tp` in `mustFilter`'s
`fmt.Errorf("cannot filter on type %s", tp)`. -/
def kindName : GoVal → String
  | .str _ => "string"
  | .int _ => "int"
  | .bool _ => "bool"
  | .slice _ => "slice"
  | .array _ => "array"
  | .map _ => "map"
  | .structV _ => "struct"
  | .ptr _ => "ptr"
  | .func => "func"

/-- First value associated to key `k` in an association list (for a Go map
or the field set of a struct, whose keys/field names are unique, this is
the value at `k`). -/
def lookupKey : List (String × GoVal) → String → Option GoVal
  | [], _ => none
  | (k1, w) :: rest, k => if k1 == k then some w else lookupKey rest k

/-- Embedding of Go's `reflect.Value.String()` on an embedded value: the
underlying string for a string-kind value, otherwise the placeholder
`"<T Value>"` where `T` prints the value's type.  For the scalar kinds the
claims exercise (`int`, `bool`) the type prints exactly as the kind name;
for the remaining kinds we also render `T` as the kind name, which keeps
the placeholder shape `"<... Value>"`. -/
def reflectString : GoVal → String
  | .str s => s
  | v => "<" ++ kindName v ++ " Value>"

/-- `rv.FieldByName(k).String()` on a struct value embedded as `fields`:
the `reflectString` of the field named `k` when it exists, and
`"<invalid Value>"` (the `String()` of the zero `reflect.Value` that
`FieldByName` returns for a missing field) otherwise. -/
def fieldString (fields : List (String × GoVal)) (k : String) : String :=
  match lookupKey fields k with
  | some w => reflectString w
  | none => "<invalid Value>"

/-- Embedding of `doFilter(item, k, v)`.  `none` means the Go code panics:
`FieldByName` is called on a value whose kind is neither struct nor
pointer-to-struct (for example a scalar element of the list), which aborts.
Otherwise `some b` is the boolean the Go function returns:
* map kind: find a key equal to `k`; on a hit, `reflect.DeepEqual` of the
  associated value with `v`; otherwise `false`;
* struct kind (or pointer to struct): `reflect.DeepEqual` of the Go string
  `el.String()` with `v`, where `el` is the field named `k` — so this is
  true exactly when `v` is a string equal to `fieldString fields k`. -/
def doFilter (item : GoVal) (k : String) (v : GoVal) : Option Bool :=
  match item with
  | .map kvs =>
    match lookupKey kvs k with
    | some w => some (deepEqual w v)
    | none => some false
  | .structV fields => some (deepEqual (.str (fieldString fields k)) v)
  | .ptr p =>
    match p with
    | .structV fields => some (deepEqual (.str (fieldString fields k)) v)
    | _ => none
  | _ => none

/-- The shapes on which `doFilter` is defined (does not panic): maps,
structs, and pointers to structs. -/
def matchable : GoVal → Bool
  | .map _ => true
  | .structV _ => true
  | .ptr (.structV _) => true
  | _ => false

/-- The element match rule as a boolean, defined on `matchable` elements
(where `doFilter` returns `some`). -/
def elementMatches (k : String) (v : GoVal) (item : GoVal) : Bool :=
  (doFilter item k v).getD false

/-- Outcome of a call to `mustFilter`: a normally returned list, a normally
returned error (the `error` result of the Go function), or a runtime
panic. -/
inductive FilterResult where
  | ok (l : List GoVal)
  | err (msg : String)
  | panicked
deriving Repr

/-- The `for i := 0; i < l; i++` loop of `mustFilter` over the elements of
a slice or array collection.  Each iteration first asserts `k.(string)`
(panicking — `none` — when `k` is not a string) and then calls `doFilter`,
collecting the matching items in order; a `doFilter` panic propagates. -/
def mustFilterLoop (k : GoVal) (v : GoVal) : List GoVal → Option (List GoVal)
  | [] => some []
  | item :: rest =>
    match k with
    | .str key =>
      match doFilter item key v with
      | some b =>
        match mustFilterLoop k v rest with
        | some res => some (if b then item :: res else res)
        | none => none
      | none => none
    | _ => none

/-- Embedding of `mustFilter(k, v, list)`.  Dispatches on the reflection
kind of `list`: slice/array run the filtering loop; map asserts
`k.(string)` and applies `doFilter` to the whole map, returning the
singleton `[list]` on a match and the empty result (`nil, nil`) otherwise;
every other kind returns the `cannot filter on type` error.  A panic in
the type assertion or in `doFilter` is `FilterResult.panicked`. -/
def mustFilter (k : GoVal) (v : GoVal) (list : GoVal) : FilterResult :=
  match list with
  | .slice xs =>
    match mustFilterLoop k v xs with
    | some res => .ok res
    | none => .panicked
  | .array xs =>
    match mustFilterLoop k v xs with
    | some res => .ok res
    | none => .panicked
  | .map _ =>
    match k with
    | .str key =>
      match doFilter list key v with
      | some true => .ok [list]
      | some false => .ok []
      | none => .panicked
    | _ => .panicked
  | other => .err ("cannot filter on type " ++ kindName other)

/-- Embedding of `filter(k, v, list)`: calls `mustFilter` and panics on a
returned error (`panic(err)`); a panic inside `mustFilter` propagates. -/
def filter (k : GoVal) (v : GoVal) (list : GoVal) : FilterResult :=
  match mustFilter k v list with
  | .ok l => .ok l
  | .err _ => .panicked
  | .panicked => .panicked

/-- Behaviour of an external marshaller (`yaml.Marshal`, `json.Marshal`,
or the TOML encoder writing into a buffer): the encoded text, or the
`err.Error()` message on failure. -/
abbrev Marshaller := GoVal → Except String String

/-- Behaviour of an external unmarshaller targeting a
`map[string]interface{}` (`yaml.Unmarshal`/`json.Unmarshal` with a `&m`
argument): given the input text and the current contents of `m`, it
returns the final contents of `m` and, on failure, `some` of the
`err.Error()` message.  Passing the destination through makes the model
record exactly what the Go call can do to `m`, including leaving partial
entries behind on an error. -/
abbrev MapUnmarshaller := String → GoMap → GoMap × Option String

/-- Behaviour of an external unmarshaller targeting a `[]interface{}`. -/
abbrev ArrUnmarshaller := String → List GoVal → List GoVal × Option String

/-- `strings.TrimSuffix(s, "\n")`: removes one trailing newline when
present (stated over the character list so that it evaluates by
reduction). -/
def trimNewlineSuffix (s : String) : String :=
  if s.data.getLast? = some '\n' then String.mk s.data.dropLast else s

/-- Embedding of `toYAML(v)`, parameterised by the behaviour of
`yaml.Marshal`: the empty string on a marshal error (the error is
swallowed), otherwise the encoding with a single trailing newline
stripped. -/
def toYAML (marshal : Marshaller) (v : GoVal) : String :=
  match marshal v with
  | .error _ => ""
  | .ok data => trimNewlineSuffix data

/-- Embedding of `toJSON(v)`, parameterised by the behaviour of
`json.Marshal`: the empty string on a marshal error (the error is
swallowed), otherwise the encoding unchanged. -/
def toJSON (marshal : Marshaller) (v : GoVal) : String :=
  match marshal v with
  | .error _ => ""
  | .ok data => data

/-- Embedding of `toTOML(v)`, parameterised by the behaviour of the TOML
encoder: on an encode error the function returns `err.Error()` itself as
the result string (the buffer's partial contents are discarded), otherwise
the buffer contents. -/
def toTOML (encode : Marshaller) (v : GoVal) : String :=
  match encode v with
  | .error e => e
  | .ok data => data

/-- Go map assignment `m[k] = v`: overwrite the entry at `k` when present,
otherwise add one. -/
def mapSet : GoMap → String → GoVal → GoMap
  | [], k, v => [(k, v)]
  | (k1, w) :: rest, k, v =>
    if k1 == k then (k1, v) :: rest else (k1, w) :: mapSet rest k v

/-- Embedding of `fromYAML(str)`, parameterised by the behaviour of
`yaml.Unmarshal` into a map: start from the empty map; on an unmarshal
error, set `m["Error"]` to the error message in whatever `m` the call left
behind; return `m`. -/
def fromYAML (unmarshal : MapUnmarshaller) (str : String) : GoMap :=
  match unmarshal str [] with
  | (m, some e) => mapSet m "Error" (.str e)
  | (m, none) => m

/-- Embedding of `fromJSON(str)` (same shape as `fromYAML`, calling
`json.Unmarshal`). -/
def fromJSON (unmarshal : MapUnmarshaller) (str : String) : GoMap :=
  match unmarshal str [] with
  | (m, some e) => mapSet m "Error" (.str e)
  | (m, none) => m

/-- Embedding of `fromYAMLArray(str)`, parameterised by the behaviour of
`yaml.Unmarshal` into a `[]interface{}`: on an unmarshal error the slice
is replaced wholesale by the one-element slice holding the error message
string. -/
def fromYAMLArray (unmarshal : ArrUnmarshaller) (str : String) : List GoVal :=
  match unmarshal str [] with
  | (_, some e) => [.str e]
  | (a, none) => a

/-- Embedding of `fromJSONArray(str)` (same shape as `fromYAMLArray`,
calling `json.Unmarshal`). -/
def fromJSONArray (unmarshal : ArrUnmarshaller) (str : String) : List GoVal :=
  match unmarshal str [] with
  | (_, some e) => [.str e]
  | (a, none) => a

/-- One call to `decoder.Decode(&m)` of the `k8s.io` YAML-or-JSON stream
decoder, as observed by `fromYamlDocument`'s loop: either a successfully
decoded document map, or a failure carrying the contents the call left in
`m` together with the `err.Error()` message.  The decoder's end-of-input
(`io.EOF`) is the end of the step list. -/
inductive DecodeStep where
  | doc (m : GoMap)
  | fail (m : GoMap) (msg : String)
deriving Repr

/-- The `for` loop of `fromYamlDocument`, with `li` the accumulated
documents: append each decoded document; at `io.EOF` return `li`; on a
decode error discard `li` and return the singleton list holding the failed
document's map with `m["Error"]` set to the message. -/
def fromYamlDocumentLoop : List DecodeStep → List GoMap → List GoMap
  | [], li => li
  | .doc m :: rest, li => fromYamlDocumentLoop rest (li ++ [m])
  | .fail m msg :: _, _ => [mapSet m "Error" (.str msg)]

/-- Embedding of `fromYamlDocument(str)`, parameterised by the stream of
decode outcomes the external decoder produces on `str`. -/
def fromYamlDocument (steps : List DecodeStep) : List GoMap :=
  fromYamlDocumentLoop steps []

/-- The reflection kinds `mustFilter` accepts as a collection (its three
non-default `switch` cases). -/
def isCollectionKind : GoVal → Bool
  | .slice _ => true
  | .array _ => true
  | .map _ => true
  | _ => false

mutual

/-- Values containing no function values (on these, `reflect.DeepEqual` is
reflexive; a non-nil Go function value is not deeply equal to itself). -/
def funcFree : GoVal → Bool
  | .str _ => true
  | .int _ => true
  | .bool _ => true
  | .slice xs => funcFreeList xs
  | .array xs => funcFreeList xs
  | .map kvs => funcFreeKVs kvs
  | .structV fields => funcFreeKVs fields
  | .ptr p => funcFree p
  | .func => false

/-- `funcFree` over the elements of a slice/array. -/
def funcFreeList : List GoVal → Bool
  | [] => true
  | x :: xs => funcFree x && funcFreeList xs

/-- `funcFree` over the values of a map/struct. -/
def funcFreeKVs : List (String × GoVal) → Bool
  | [] => true
  | (_, v) :: rest => funcFree v && funcFreeKVs rest

end

/-! ## Helper lemmas -/

mutual

theorem deepEqual_refl : ∀ v : GoVal, funcFree v = true → deepEqual v v = true
  | .str s, _ => by simp [deepEqual]
  | .int n, _ => by simp [deepEqual]
  | .bool b, _ => by simp [deepEqual]
  | .slice xs, h => by
    rw [deepEqual]
    exact deepEqualList_refl xs (by simpa [funcFree] using h)
  | .array xs, h => by
    rw [deepEqual]
    exact deepEqualList_refl xs (by simpa [funcFree] using h)
  | .map kvs, h => by
    rw [deepEqual]
    exact deepEqualKVs_refl kvs (by simpa [funcFree] using h)
  | .structV fields, h => by
    rw [deepEqual]
    exact deepEqualKVs_refl fields (by simpa [funcFree] using h)
  | .ptr p, h => by
    rw [deepEqual]
    exact deepEqual_refl p (by simpa [funcFree] using h)

theorem deepEqualList_refl : ∀ xs : List GoVal, funcFreeList xs = true → deepEqualList xs xs = true
  | [], _ => by simp [deepEqualList]
  | x :: xs, h => by
    rw [deepEqualList]
    have hx : funcFree x = true := by
      have := h
      rw [funcFreeList, Bool.and_eq_true] at this
      exact this.1
    have hxs : funcFreeList xs = true := by
      have := h
      rw [funcFreeList, Bool.and_eq_true] at this
      exact this.2
    rw [deepEqual_refl x hx, deepEqualList_refl xs hxs]
    rfl

theorem deepEqualKVs_refl : ∀ kvs : List (String × GoVal), funcFreeKVs kvs = true →
    deepEqualKVs kvs kvs = true
  | [], _ => by simp [deepEqualKVs]
  | (k, v) :: rest, h => by
    rw [deepEqualKVs]
    have hv : funcFree v = true := by
      have := h
      rw [funcFreeKVs, Bool.and_eq_true] at this
      exact this.1
    have hrest : funcFreeKVs rest = true := by
      have := h
      rw [funcFreeKVs, Bool.and_eq_true] at this
      exact this.2
    rw [deepEqual_refl v hv, deepEqualKVs_refl rest hrest]
    simp

end

theorem doFilter_isSome (item : GoVal) (k : String) (v : GoVal) :
    (doFilter item k v).isSome = matchable item := by
  cases item with
  | map kvs =>
    rw [doFilter, matchable]
    cases lookupKey kvs k <;> rfl
  | structV fields => rfl
  | ptr p => cases p <;> rfl
  | _ => rfl

theorem doFilter_map_eq (kvs : GoMap) (k : String) (v : GoVal) :
    doFilter (.map kvs) k v = some (elementMatches k v (.map kvs)) := by
  rw [elementMatches, doFilter]
  cases lookupKey kvs k <;> rfl

theorem mustFilterLoop_eq_filter (key : String) (v : GoVal) (xs : List GoVal)
    (h : ∀ x ∈ xs, matchable x = true) :
    mustFilterLoop (.str key) v xs = some (xs.filter (elementMatches key v)) := by
  induction xs with
  | nil => rfl
  | cons x rest ih =>
    have hx : (doFilter x key v).isSome = true := by
      rw [doFilter_isSome]
      exact h x (List.mem_cons_self x rest)
    obtain ⟨b, hb⟩ := Option.isSome_iff_exists.mp hx
    have hrest := ih (fun y hy => h y (List.mem_cons_of_mem x hy))
    have hbm : elementMatches key v x = b := by rw [elementMatches, hb]; rfl
    rw [mustFilterLoop, hb, hrest, List.filter_cons, hbm]

theorem mustFilterLoop_none (key : String) (v : GoVal) (xs : List GoVal)
    (h : ∃ x ∈ xs, matchable x = false) :
    mustFilterLoop (.str key) v xs = none := by
  induction xs with
  | nil => simp at h
  | cons x rest ih =>
    obtain ⟨y, hy, hmy⟩ := h
    rcases List.mem_cons.mp hy with hyx | hyr
    · have hx : (doFilter x key v).isSome = false := by
        rw [doFilter_isSome, ← hyx]
        exact hmy
      have : doFilter x key v = none := Option.not_isSome_iff_eq_none.mp (by simp [hx])
      rw [mustFilterLoop, this]
    · cases hdx : doFilter x key v with
      | none => rw [mustFilterLoop, hdx]
      | some b => rw [mustFilterLoop, hdx, ih ⟨y, hyr, hmy⟩]

theorem lookupKey_mapSet (m : GoMap) (k : String) (v : GoVal) :
    lookupKey (mapSet m k v) k = some v := by
  induction m with
  | nil => simp [mapSet, lookupKey]
  | cons kv rest ih =>
    obtain ⟨k1, w⟩ := kv
    by_cases h : k1 = k
    · simp [mapSet, lookupKey, h]
    · simp [mapSet, lookupKey, h, ih]

theorem fromYamlDocumentLoop_docs (ms : List GoMap) (acc : List GoMap) :
    fromYamlDocumentLoop (ms.map .doc) acc = acc ++ ms := by
  induction ms generalizing acc with
  | nil => simp [fromYamlDocumentLoop]
  | cons m rest ih => simp [fromYamlDocumentLoop, ih]

theorem fromYamlDocumentLoop_fail (pre : List GoMap) (m : GoMap) (msg : String)
    (rest : List DecodeStep) (acc : List GoMap) :
    fromYamlDocumentLoop (pre.map .doc ++ .fail m msg :: rest) acc
      = [mapSet m "Error" (.str msg)] := by
  induction pre generalizing acc with
  | nil => simp [fromYamlDocumentLoop]
  | cons p ps ih => simp [fromYamlDocumentLoop, ih]

/-! ## Claims -/

/-- C1: for every string predicate key, predicate value and collection:
a slice or fixed-size array collection yields, in the original order,
exactly the elements satisfying the element match rule (stated on
collections whose elements the match rule is defined on — maps, structs
and pointers to structs); a single map-like collection has the match rule
applied to the whole map, yielding the one-element sequence containing it
on a match and the empty result otherwise; every other collection shape
yields the TypeMismatch error naming the unsupported kind. -/
theorem C1_mustFilter_shapes (key : String) (v : GoVal) :
    (∀ xs : List GoVal, (∀ x ∈ xs, matchable x = true) →
      mustFilter (.str key) v (.slice xs)
          = .ok (xs.filter (elementMatches key v)) ∧
      mustFilter (.str key) v (.array xs)
          = .ok (xs.filter (elementMatches key v))) ∧
    (∀ kvs : GoMap,
      mustFilter (.str key) v (.map kvs)
        = if elementMatches key v (.map kvs) then .ok [.map kvs] else .ok []) ∧
    (∀ c : GoVal, isCollectionKind c = false →
      mustFilter (.str key) v c = .err ("cannot filter on type " ++ kindName c)) := by
  refine ⟨fun xs h => ⟨?_, ?_⟩, fun kvs => ?_, fun c hc => ?_⟩
  · simp only [mustFilter]
    rw [mustFilterLoop_eq_filter key v xs h]
  · simp only [mustFilter]
    rw [mustFilterLoop_eq_filter key v xs h]
  · simp only [mustFilter]
    rw [doFilter_map_eq]
    cases hm : elementMatches key v (.map kvs) <;> simp [hm]
  · cases c <;> first | rfl | simp [isCollectionKind] at hc

/-- C1 witness: concrete instances of the three shapes — the filtered
slice, the singleton map match, and the TypeMismatch error on an int
collection. -/
theorem C1_witness :
    mustFilter (.str "name") (.str "x")
        (.slice [.map [("name", .str "x")], .map [("name", .str "y")]])
      = .ok [.map [("name", .str "x")]] ∧
    mustFilter (.str "name") (.str "x") (.map [("name", .str "x")])
      = .ok [.map [("name", .str "x")]] ∧
    mustFilter (.str "name") (.str "x") (.int 5)
      = .err "cannot filter on type int" := by
  have h := C1_mustFilter_shapes "name" (.str "x")
  refine ⟨?_, ?_, ?_⟩
  · rw [(h.1 [.map [("name", .str "x")], .map [("name", .str "y")]]
      (by intro x hx; fin_cases hx <;> rfl)).1]
    rfl
  · rw [h.2.1 [("name", .str "x")]]
    rfl
  · rw [h.2.2 (.int 5) rfl]
    rfl

/-- C2 counterexample: the claim predicts that an integer struct field 42
matches the predicate value "42" because the comparison is between string
representations; in the code the comparison is
`reflect.DeepEqual(el.String(), v)`, and `el.String()` on an int-kind
field is the placeholder "<int Value>", so the struct element with field
`A = 42` does not match the predicate `("A", "42")`. -/
theorem C2_counterexample :
    doFilter (.structV [("A", .int 42)]) "A" (.str "42") = some false := by rfl

/-- C2 (amended): the element match rule is asymmetric between maps and
structured records, but in the opposite way for non-string fields than
claimed: for a map-like element, a key equal to the predicate key matches
iff its associated value is deep-equal to the predicate value (so an
integer 42 does NOT match the predicate value "42"); for a struct element
(or pointer to one), the field named by the predicate key matches iff the
predicate value is a string equal to the field's reflect `String()` form —
the field's own content when the field has string kind, the placeholder
`"<T Value>"` otherwise — so a string field "42" DOES match "42" by string
comparison, while an integer field 42 does NOT match "42" (it would only
match the string "<int Value>"). -/
theorem C2_amended_match_rule (key : String) (v : GoVal) :
    (∀ kvs : GoMap, doFilter (.map kvs) key v
        = some (match lookupKey kvs key with
                | some w => deepEqual w v
                | none => false)) ∧
    (∀ fields : GoMap,
      doFilter (.structV fields) key v
        = some (deepEqual (.str (fieldString fields key)) v) ∧
      doFilter (.ptr (.structV fields)) key v
        = some (deepEqual (.str (fieldString fields key)) v)) ∧
    doFilter (.map [(key, .int 42)]) key (.str "42") = some false ∧
    doFilter (.structV [(key, .int 42)]) key (.str "42") = some false ∧
    doFilter (.structV [(key, .str "42")]) key (.str "42") = some true := by
  refine ⟨fun kvs => ?_, fun fields => ⟨rfl, rfl⟩, ?_, ?_, ?_⟩
  · cases h : lookupKey kvs key <;> simp [doFilter, h]
  · simp only [doFilter, lookupKey, beq_self_eq_true, if_true]
    rfl
  · simp only [doFilter, fieldString, lookupKey, beq_self_eq_true, if_true]
    rfl
  · simp only [doFilter, fieldString, lookupKey, beq_self_eq_true, if_true]
    rfl

/-- C3: `fromYamlDocument` returns the successfully decoded documents in
input order when the decoder reaches end-of-input without error (the empty
sequence for an input without documents), and on the first decode failure
discards every previously accumulated document and returns the singleton
sequence holding one map whose "Error" key carries the error message. -/
theorem C3_fromYamlDocument_spec :
    (∀ ms : List GoMap, fromYamlDocument (ms.map .doc) = ms) ∧
    (∀ (pre : List GoMap) (m : GoMap) (msg : String) (rest : List DecodeStep),
      fromYamlDocument (pre.map .doc ++ .fail m msg :: rest)
        = [mapSet m "Error" (.str msg)]) ∧
    (∀ (m : GoMap) (msg : String),
      lookupKey (mapSet m "Error" (.str msg)) "Error" = some (.str msg)) ∧
    fromYamlDocument [] = [] := by
  refine ⟨fun ms => ?_, fun pre m msg rest => ?_,
    fun m msg => lookupKey_mapSet m _ _, rfl⟩
  · rw [fromYamlDocument, fromYamlDocumentLoop_docs]
    rfl
  · rw [fromYamlDocument, fromYamlDocumentLoop_fail]

/-- C4 counterexample: the claim predicts a map with exactly one entry,
key "Error", on every parse failure.  The wrapper never removes what the
parser stored in the destination before failing, and `json.Unmarshal` into
a `map[string]interface{}` can fail after storing fields: on the object
with entries `a: 1` and `b: 1e999` (the number overflows float64) it
reports an `UnmarshalTypeError` after `m["a"]` is populated, having
completed "as best it can".  The instantiated unmarshaller behaves that
way, and the resulting map has two entries — the partially parsed field
"a" alongside "Error". -/
theorem C4_counterexample :
    fromJSON
      (fun _ _ => ([("a", .int 1)],
        some "json: cannot unmarshal number 1e999 into Go value of type float64"))
      "\x7b\"a\":1,\"b\":1e999\x7d"
      = [("a", .int 1),
         ("Error", .str "json: cannot unmarshal number 1e999 into Go value of type float64")] := by
  rfl

/-- C4 (amended): when parsing fails, `fromYAML` / `fromJSON` return the
destination map as the parser left it with `m["Error"]` set to the
parser's non-empty error message — so the "Error" key always carries the
message, but fields the parser stored before failing remain alongside it;
the map has exactly the one "Error" entry precisely when the parser left
the destination untouched (as it does for malformed input rejected by
whole-input validation before any field is stored). -/
theorem C4_error_key_set (uy uj : MapUnmarshaller) (s : String)
    (pm pj : GoMap) (ey ej : String)
    (hy : uy s [] = (pm, some ey)) (hyne : ey ≠ "")
    (hj : uj s [] = (pj, some ej)) (hjne : ej ≠ "") :
    (fromYAML uy s = mapSet pm "Error" (.str ey) ∧
     lookupKey (fromYAML uy s) "Error" = some (.str ey) ∧
     (pm = [] → fromYAML uy s = [("Error", .str ey)]) ∧ ey ≠ "") ∧
    (fromJSON uj s = mapSet pj "Error" (.str ej) ∧
     lookupKey (fromJSON uj s) "Error" = some (.str ej) ∧
     (pj = [] → fromJSON uj s = [("Error", .str ej)]) ∧ ej ≠ "") := by
  have h1 : fromYAML uy s = mapSet pm "Error" (.str ey) := by
    unfold fromYAML
    rw [hy]
  have h2 : fromJSON uj s = mapSet pj "Error" (.str ej) := by
    unfold fromJSON
    rw [hj]
  refine ⟨⟨h1, ?_, ?_, hyne⟩, ⟨h2, ?_, ?_, hjne⟩⟩
  · rw [h1]
    exact lookupKey_mapSet pm _ _
  · intro hpm
    rw [h1, hpm]
    rfl
  · rw [h2]
    exact lookupKey_mapSet pj _ _
  · intro hpj
    rw [h2, hpj]
    rfl

/-- C4 witness: a YAML parser that fails leaving the field "a" behind
yields the two-entry map with "Error" set, while a JSON parser that fails
leaving the map untouched yields exactly the one-entry error map. -/
theorem C4_witness :
    (fromYAML (fun _ _ => ([("a", .int 1)], some "e1")) "y"
        = mapSet [("a", .int 1)] "Error" (.str "e1") ∧
     lookupKey (fromYAML (fun _ _ => ([("a", .int 1)], some "e1")) "y") "Error"
        = some (.str "e1") ∧
     (([("a", .int 1)] : GoMap) = [] →
       fromYAML (fun _ _ => ([("a", .int 1)], some "e1")) "y"
         = [("Error", .str "e1")]) ∧ ("e1" : String) ≠ "") ∧
    (fromJSON (fun _ m => (m, some "e2")) "y"
        = mapSet [] "Error" (.str "e2") ∧
     lookupKey (fromJSON (fun _ m => (m, some "e2")) "y") "Error"
        = some (.str "e2") ∧
     (([] : GoMap) = [] →
       fromJSON (fun _ m => (m, some "e2")) "y" = [("Error", .str "e2")]) ∧
     ("e2" : String) ≠ "") :=
  C4_error_key_set (fun _ _ => ([("a", .int 1)], some "e1"))
    (fun _ m => (m, some "e2")) "y" [("a", .int 1)] [] "e1" "e2"
    rfl (by decide) rfl (by decide)

/-- C5: when parsing fails, `fromYAMLArray` / `fromJSONArray` return a
one-element sequence whose sole element is the error message as a string
(not a map) — regardless of what the parser left in the destination slice,
since the wrapper replaces the slice wholesale. -/
theorem C5_array_error_shape (uy uj : ArrUnmarshaller) (s : String)
    (ay aj : List GoVal) (ey ej : String)
    (hy : uy s [] = (ay, some ey)) (hj : uj s [] = (aj, some ej)) :
    fromYAMLArray uy s = [.str ey] ∧ fromJSONArray uj s = [.str ej] := by
  constructor
  · unfold fromYAMLArray
    rw [hy]
  · unfold fromJSONArray
    rw [hj]

/-- C5 witness: failing array parsers produce the one-element string
error sequence. -/
theorem C5_witness :
    fromYAMLArray (fun _ a => (a, some "bady")) "zz" = [.str "bady"] ∧
    fromJSONArray (fun _ a => (a, some "badj")) "zz" = [.str "badj"] :=
  C5_array_error_shape (fun _ a => (a, some "bady")) (fun _ a => (a, some "badj"))
    "zz" [] [] "bady" "badj" rfl rfl

/-- C6: on an encode failure, `toYAML` and `toJSON` return the empty
string (the error is fully swallowed) while `toTOML` returns the error's
textual description as the result string; all three return plain strings,
so none signals failure through the normal error channel (their Go return
type is `string`, with no `error` result). -/
theorem C6_encode_failure (my mj mt : Marshaller) (v : GoVal)
    (ey ej et : String)
    (hy : my v = .error ey) (hj : mj v = .error ej) (ht : mt v = .error et) :
    toYAML my v = "" ∧ toJSON mj v = "" ∧ toTOML mt v = et := by
  refine ⟨?_, ?_, ?_⟩
  · unfold toYAML
    rw [hy]
  · unfold toJSON
    rw [hj]
  · unfold toTOML
    rw [ht]

/-- C6 witness: encoders failing on a function value (a value no format
can serialise). -/
theorem C6_witness :
    toYAML (fun _ => .error "ey") .func = "" ∧
    toJSON (fun _ => .error "ej") .func = "" ∧
    toTOML (fun _ => .error "et") .func = "et" :=
  C6_encode_failure (fun _ => .error "ey") (fun _ => .error "ej")
    (fun _ => .error "et") .func "ey" "ej" "et" rfl rfl rfl

/-- C7: on arguments where `mustFilter` terminates normally (no panic of
its own), `filter` aborts exactly when `mustFilter` reports an error, and
otherwise returns the same sequence `mustFilter` returns — the two entry
points detect the same unsupported-collection-shape condition and differ
only in how the caller is notified. -/
theorem C7_filter_vs_mustFilter (k v list : GoVal)
    (h : mustFilter k v list ≠ .panicked) :
    ((filter k v list = .panicked) ↔ ∃ e, mustFilter k v list = .err e) ∧
    (∀ l, filter k v list = .ok l ↔ mustFilter k v list = .ok l) := by
  cases hm : mustFilter k v list with
  | ok l0 =>
    unfold filter
    rw [hm]
    simp
  | err e0 =>
    unfold filter
    rw [hm]
    simp
  | panicked => exact absurd hm h

/-- C7 witness: at the TypeMismatch input (an int collection), `filter`
panics exactly because `mustFilter` reports the error, and neither returns
a sequence. -/
theorem C7_witness :
    ((filter (.str "name") (.str "x") (.int 5) = .panicked)
      ↔ ∃ e, mustFilter (.str "name") (.str "x") (.int 5) = .err e) ∧
    (∀ l, filter (.str "name") (.str "x") (.int 5) = .ok l
      ↔ mustFilter (.str "name") (.str "x") (.int 5) = .ok l) :=
  C7_filter_vs_mustFilter (.str "name") (.str "x") (.int 5)
    (fun hc => FilterResult.noConfusion hc)

/-- C8 counterexample: the round trip already fails at the YAML-encodable
scalar value 5.  `fromYAML` returns a `map[string]interface{}` whatever
the parser does, so decoding the encoding of a non-map value can never be
deep-equal to it.  The instantiated marshaller encodes 5 as "5\n" the way
`yaml.Marshal` does, and the unmarshaller rejects "5" the way
`yaml.Unmarshal` into a map does; the inequality holds for every possible
unmarshaller behaviour because the result's shape is a map. -/
theorem C8_counterexample :
    deepEqual
      (.map (fromYAML
        (fun _ m => (m, some "error unmarshaling JSON: json: cannot unmarshal number into Go value of type map"))
        (toYAML (fun _ => .ok "5\n") (.int 5))))
      (.int 5) = false ∧
    deepEqual
      (.map (fromJSON
        (fun _ m => (m, some "json: cannot unmarshal number into Go value of type map"))
        (toJSON (fun _ => .ok "5") (.int 5))))
      (.int 5) = false := ⟨rfl, rfl⟩

/-- C8 (amended): for every map-shaped, function-free Dynamic Value whose
encoding the format's decoder successfully decodes back to the same
entries, the single-document round trip holds: `fromYaml(toYaml v)` and
`fromJson(toJson v)` are the same map as `v`, hence deep-equal to it.  The
hypotheses record the encodability of `v` and the round-trip behaviour of
the external codec pair on `v`'s encoding (for YAML, on the encoding with
the trailing newline stripped, which is what `toYAML` produces); the
conclusion is the contribution of the wrappers: the newline trim and the
error shaping do not disturb the round trip. -/
theorem C8_amended_roundtrip (my mj : Marshaller) (uy uj : MapUnmarshaller)
    (kvs : GoMap) (sy sj : String)
    (hff : funcFree (.map kvs) = true)
    (hy1 : my (.map kvs) = .ok sy)
    (hy2 : uy (trimNewlineSuffix sy) [] = (kvs, none))
    (hj1 : mj (.map kvs) = .ok sj)
    (hj2 : uj sj [] = (kvs, none)) :
    fromYAML uy (toYAML my (.map kvs)) = kvs ∧
    deepEqual (.map (fromYAML uy (toYAML my (.map kvs)))) (.map kvs) = true ∧
    fromJSON uj (toJSON mj (.map kvs)) = kvs ∧
    deepEqual (.map (fromJSON uj (toJSON mj (.map kvs)))) (.map kvs) = true := by
  have h1 : fromYAML uy (toYAML my (.map kvs)) = kvs := by
    unfold toYAML
    rw [hy1]
    unfold fromYAML
    rw [hy2]
  have h2 : fromJSON uj (toJSON mj (.map kvs)) = kvs := by
    unfold toJSON
    rw [hj1]
    unfold fromJSON
    rw [hj2]
  refine ⟨h1, ?_, h2, ?_⟩
  · rw [h1]
    exact deepEqual_refl _ hff
  · rw [h2]
    exact deepEqual_refl _ hff

/-- C8 witness: a concrete codec pair that encodes the map `{a: 1}` as
"a: 1\n" (YAML, trailing newline) resp. "aj" (JSON) and decodes those
encodings back; the wrappers round-trip the map. -/
theorem C8_witness :
    fromYAML (fun s m => if s = "a: 1" then ([("a", .int 1)], none) else (m, some "e"))
        (toYAML (fun _ => .ok "a: 1\n") (.map [("a", .int 1)]))
      = [("a", .int 1)] ∧
    deepEqual
      (.map (fromYAML (fun s m => if s = "a: 1" then ([("a", .int 1)], none) else (m, some "e"))
        (toYAML (fun _ => .ok "a: 1\n") (.map [("a", .int 1)]))))
      (.map [("a", .int 1)]) = true ∧
    fromJSON (fun s m => if s = "aj" then ([("a", .int 1)], none) else (m, some "e"))
        (toJSON (fun _ => .ok "aj") (.map [("a", .int 1)]))
      = [("a", .int 1)] ∧
    deepEqual
      (.map (fromJSON (fun s m => if s = "aj" then ([("a", .int 1)], none) else (m, some "e"))
        (toJSON (fun _ => .ok "aj") (.map [("a", .int 1)]))))
      (.map [("a", .int 1)]) = true :=
  C8_amended_roundtrip (fun _ => .ok "a: 1\n") (fun _ => .ok "aj")
    (fun s m => if s = "a: 1" then ([("a", .int 1)], none) else (m, some "e"))
    (fun s m => if s = "aj" then ([("a", .int 1)], none) else (m, some "e"))
    [("a", .int 1)] "a: 1\n" "aj" rfl rfl rfl rfl rfl

/-- C9: `mustFilter` with a string predicate key over a slice or array
containing any element that is neither a map, a struct, nor a pointer to a
struct panics (the reflective `FieldByName` on a non-struct value) instead
of returning a TypeMismatch error or skipping the element: the
error-reporting variant is not total over sequences of scalars. -/
theorem C9_scalar_element_panics (key : String) (v : GoVal) (xs : List GoVal)
    (h : ∃ x ∈ xs, matchable x = false) :
    mustFilter (.str key) v (.slice xs) = .panicked ∧
    mustFilter (.str key) v (.array xs) = .panicked := by
  have hl := mustFilterLoop_none key v xs h
  constructor
  · simp only [mustFilter]
    rw [hl]
  · simp only [mustFilter]
    rw [hl]

/-- C9 witness: a slice holding the scalar 1 alongside a perfectly
matchable map panics. -/
theorem C9_witness :
    mustFilter (.str "name") (.str "x")
        (.slice [.int 1, .map [("name", .str "x")]]) = .panicked ∧
    mustFilter (.str "name") (.str "x")
        (.array [.int 1, .map [("name", .str "x")]]) = .panicked :=
  C9_scalar_element_panics "name" (.str "x") [.int 1, .map [("name", .str "x")]]
    ⟨.int 1, List.mem_cons_self _ _, rfl⟩

/-- C10: with a non-string predicate key, `mustFilter` panics on the
unchecked `k.(string)` type assertion whenever the collection is a
non-empty slice/array or a map (the assertion sits inside the element loop
and before the map-case call, so it fires on the first element or
immediately for maps); but over an empty slice or array the loop body
never runs, the assertion is never reached, and `mustFilter` succeeds with
the empty result. -/
theorem C10_nonstring_key (k v : GoVal) (h : ∀ s : String, k ≠ .str s) :
    (∀ (x : GoVal) (xs : List GoVal),
      mustFilter k v (.slice (x :: xs)) = .panicked ∧
      mustFilter k v (.array (x :: xs)) = .panicked) ∧
    (∀ kvs : GoMap, mustFilter k v (.map kvs) = .panicked) ∧
    mustFilter k v (.slice []) = .ok [] ∧
    mustFilter k v (.array []) = .ok [] := by
  have hloop : ∀ (x : GoVal) (xs : List GoVal), mustFilterLoop k v (x :: xs) = none := by
    intro x xs
    cases k <;> first | (exact absurd rfl (h _)) | rfl
  refine ⟨fun x xs => ⟨?_, ?_⟩, fun kvs => ?_, rfl, rfl⟩
  · simp only [mustFilter]
    rw [hloop x xs]
  · simp only [mustFilter]
    rw [hloop x xs]
  · cases k <;> first | (exact absurd rfl (h _)) | rfl

/-- C10 witness: with the int key 0, a one-element slice and a map panic,
while the empty slice succeeds with the empty result. -/
theorem C10_witness :
    mustFilter (.int 0) (.str "x") (.slice [.map [("a", .int 1)]]) = .panicked ∧
    mustFilter (.int 0) (.str "x") (.map [("a", .int 1)]) = .panicked ∧
    mustFilter (.int 0) (.str "x") (.slice []) = .ok [] := by
  have h := C10_nonstring_key (.int 0) (.str "x") (fun s hs => GoVal.noConfusion hs)
  exact ⟨(h.1 (.map [("a", .int 1)]) []).1, h.2.1 [("a", .int 1)], h.2.2.1⟩

end Engine
